import Mathlib

/-!
Shallow embedding of the playback arbitration logic of `gpio_sound_player.py`
(class `SoundPlayer`).  The engine state is the set of pygame channel ids that
are currently emitting audio together with the `currently_playing` table
mapping a button index to its assigned channel.  The pygame channel pool is
an external collaborator; it is modelled as `N` channel slots `0 .. N-1`,
where `Sound.play()` grabs the first idle slot and fails when none is idle.
-/

/-- State of the playback engine: `busy` is the set of pygame channel ids
currently emitting audio (`Channel.get_busy()` is true exactly on these), and
`currently_playing` is the dict `{button_index: channel}` kept as an
association list with unique keys. -/
structure PlayerState where
  busy : List Nat
  currently_playing : List (Nat × Nat)
deriving DecidableEq, Repr

/-- One entry of `track_config`: interaction mode, self-retrigger behavior
and priority, exactly the three keys of the Python dict. -/
structure TrackConfig where
  mode : String
  self : String
  priority : Int
deriving DecidableEq, Repr

/-- Observable outcome of one `play_sound` call, mirroring the distinct
return paths / log messages of the Python function. -/
inductive PlayResult where
  | noSound
  | ignored
  | blocked
  | dropped
  | played (c : Nat)
deriving DecidableEq, Repr

/-- The hard-coded `track_config` table of `SoundPlayer.__init__`. -/
def track_config : Nat → Option TrackConfig := fun b =>
  if b = 0 then some ⟨"interrupt", "ignore", 3⟩
  else if b = 1 then some ⟨"interrupt", "ignore", 1⟩
  else if b = 2 then some ⟨"overlay", "restart", 2⟩
  else if b = 3 then some ⟨"overlay", "queue", 1⟩
  else if b = 4 then some ⟨"exclusive", "ignore", 5⟩
  else none

/-- The default configuration used by `play_sound` when a button is missing
from `track_config`. -/
def default_config : TrackConfig := ⟨"overlay", "restart", 1⟩

/-- Total configuration function obtained from a table via the
`track_config.get(button_index, default)` lookup of `play_sound`. -/
def cfgOf (t : Nat → Option TrackConfig) : Nat → TrackConfig := fun b =>
  (t b).getD default_config

/-- The concrete total configuration of the script. -/
def track_cfg : Nat → TrackConfig := cfgOf track_config

/-- The loaded-sounds table in the nominal run: all five files present. -/
def soundsAll : List Bool := [true, true, true, true, true]

/-- Dict lookup `self.currently_playing[button_index]` (with the
`button_index in self.currently_playing` membership test folded in). -/
def lookupChan (s : PlayerState) (b : Nat) : Option Nat :=
  (s.currently_playing.find? (fun p => decide (p.1 = b))).map Prod.snd

/-- `channel.get_busy()` for a channel handle. -/
def get_busy (s : PlayerState) (c : Nat) : Bool :=
  decide (c ∈ s.busy)

/-- `channel.stop()`: the channel immediately stops emitting and becomes
available again; the `currently_playing` table is not touched. -/
def chanStop (s : PlayerState) (c : Nat) : PlayerState :=
  { s with busy := s.busy.erase c }

/-- `SoundPlayer.stop_all_sounds`: `pygame.mixer.stop()` halts every channel
and `currently_playing.clear()` empties the table. -/
def stop_all_sounds (_s : PlayerState) : PlayerState :=
  { busy := [], currently_playing := [] }

/-- `SoundPlayer.stop_lower_priority_sounds`: collect the entries whose
channel is still busy and whose configured priority is strictly below the
given one, stop those channels, and delete those entries. -/
def stop_lower_priority_sounds (cfg : Nat → TrackConfig) (priority : Int)
    (s : PlayerState) : PlayerState :=
  let to_remove := s.currently_playing.filter
    (fun p => get_busy s p.2 && decide ((cfg p.1).priority < priority))
  { busy := s.busy.filter (fun c => !decide (c ∈ to_remove.map Prod.snd)),
    currently_playing := s.currently_playing.filter
      (fun p => !decide (p.1 ∈ to_remove.map Prod.fst)) }

/-- `SoundPlayer.is_anything_playing`: delete the entries whose channel has
finished, then report whether any entry remains. -/
def is_anything_playing (s : PlayerState) : Bool × PlayerState :=
  let to_remove := s.currently_playing.filter (fun p => !get_busy s p.2)
  let cp := s.currently_playing.filter
    (fun p => !decide (p.1 ∈ to_remove.map Prod.fst))
  (decide (0 < cp.length), { s with currently_playing := cp })

/-- Modelled from the spec: the audio subsystem's channel allocation, which
is not part of the repository (it lives in pygame).  §4.2 `start` "acquires
a free channel" and "fails if no implementation-defined channel slot is
free"; pygame's `Sound.play()` takes the first idle slot of the pool of `N`
channels and returns `None` when all are busy. -/
def find_free_channel (N : Nat) (busy : List Nat) : Option Nat :=
  (List.range N).find? (fun c => !decide (c ∈ busy))

/-- Dict assignment `self.currently_playing[button_index] = channel`:
replace the value in place when the key exists, append otherwise. -/
def setChannel (cp : List (Nat × Nat)) (b c : Nat) : List (Nat × Nat) :=
  if cp.any (fun p => decide (p.1 = b)) then
    cp.map (fun p => if p.1 = b then (b, c) else p)
  else cp ++ [(b, c)]

/-- Lines 174-180 of `play_sound`: `channel = self.sounds[button_index].play()`;
on success record the assignment, otherwise report the drop and change
nothing. -/
def play_and_record (N : Nat) (s : PlayerState) (b : Nat) :
    PlayerState × PlayResult :=
  match find_free_channel N s.busy with
  | some c =>
      ({ busy := c :: s.busy, currently_playing := setChannel s.currently_playing b c },
       PlayResult.played c)
  | none => (s, PlayResult.dropped)

/-- Lines 150-160 of `play_sound`: the self-interaction check.  Returns
`none` when the trigger is aborted (`ignore` while busy); otherwise returns
the state after the optional `restart` stop (the table entry is not removed
by this step).  `queue` and any unrecognized string fall through unchanged. -/
def self_check (self_behavior : String) (s : PlayerState) (b : Nat) :
    Option PlayerState :=
  match lookupChan s b with
  | some channel =>
      if get_busy s channel then
        if self_behavior = "ignore" then none
        else if self_behavior = "restart" then some (chanStop s channel)
        else some s
      else some s
  | none => some s

/-- Lines 162-172 of `play_sound`: the cross-source interaction dispatch.
Returns the updated state and whether the trigger was blocked
(`exclusive` mode with something still playing). -/
def cross_interaction (cfg : Nat → TrackConfig) (mode : String)
    (priority : Int) (s : PlayerState) : PlayerState × Bool :=
  if mode = "interrupt" then (stop_all_sounds s, false)
  else if mode = "exclusive" then
    let r := is_anything_playing s
    (r.2, r.1)
  else if mode = "overlay" then
    (stop_lower_priority_sounds cfg priority s, false)
  else (s, false)

/-- `SoundPlayer.play_sound`: the complete trigger handler. -/
def play_sound (N : Nat) (sounds : List Bool) (cfg : Nat → TrackConfig)
    (s : PlayerState) (button_index : Nat) : PlayerState × PlayResult :=
  if !(sounds.getD button_index false) then (s, PlayResult.noSound)
  else
    match self_check (cfg button_index).self s button_index with
    | none => (s, PlayResult.ignored)
    | some s1 =>
        let r := cross_interaction cfg (cfg button_index).mode
          (cfg button_index).priority s1
        if r.2 then (r.1, PlayResult.blocked)
        else play_and_record N r.1 button_index

/-- A source is busy when it has a table entry whose channel still emits
(the test of lines 151-153). -/
def sourceBusy (s : PlayerState) (b : Nat) : Bool :=
  match lookupChan s b with
  | some c => get_busy s c
  | none => false

/-- One step of the whole system: either a trigger event handled by
`play_sound`, or a channel finishing its sample naturally (observed lazily
by the engine). -/
inductive Step (N : Nat) (sounds : List Bool) (cfg : Nat → TrackConfig) :
    PlayerState → PlayerState → Prop where
  | trigger (s : PlayerState) (b : Nat) :
      Step N sounds cfg s (play_sound N sounds cfg s b).1
  | finish (s : PlayerState) (c : Nat) :
      Step N sounds cfg s { s with busy := s.busy.erase c }

/-- The startup state: nothing playing, no assignments. -/
def initState : PlayerState := { busy := [], currently_playing := [] }

/-- States reachable from startup by any interleaving of trigger events and
natural playback completions. -/
def Reachable (N : Nat) (sounds : List Bool) (cfg : Nat → TrackConfig)
    (s : PlayerState) : Prop :=
  Relation.ReflTransGen (Step N sounds cfg) initState s

/-- One trigger event, with no natural completion allowed. -/
inductive TriggerStep (N : Nat) (sounds : List Bool) (cfg : Nat → TrackConfig) :
    PlayerState → PlayerState → Prop where
  | trigger (s : PlayerState) (b : Nat) :
      TriggerStep N sounds cfg s (play_sound N sounds cfg s b).1

/-- States reachable from startup by trigger events alone. -/
def TriggerReachable (N : Nat) (sounds : List Bool) (cfg : Nat → TrackConfig)
    (s : PlayerState) : Prop :=
  Relation.ReflTransGen (TriggerStep N sounds cfg) initState s

/-! ### Basic facts about the table lookup and the channel allocator -/

theorem find_assoc_of_mem : ∀ {cp : List (Nat × Nat)} {b c : Nat},
    (cp.map Prod.fst).Nodup → (b, c) ∈ cp →
    (cp.find? (fun p => decide (p.1 = b))).map Prod.snd = some c := by
  intro cp
  induction cp with
  | nil => simp
  | cons q t ih =>
      intro b c hk hm
      simp only [List.map_cons, List.nodup_cons] at hk
      rcases List.mem_cons.mp hm with he | ht
      · rw [List.find?_cons_of_pos t (by simp [← he])]
        simp [← he]
      · have hb : b ∈ t.map Prod.fst :=
          List.mem_map.mpr ⟨(b, c), ht, rfl⟩
        have hq : q.1 ≠ b := fun h => hk.1 (h ▸ hb)
        rw [List.find?_cons_of_neg t (by simpa using hq)]
        exact ih hk.2 ht

theorem mem_of_lookupChan_eq_some {s : PlayerState} {b c : Nat}
    (h : lookupChan s b = some c) : (b, c) ∈ s.currently_playing := by
  unfold lookupChan at h
  cases hf : s.currently_playing.find? (fun p => decide (p.1 = b)) with
  | none => rw [hf] at h; simp at h
  | some q =>
      rw [hf] at h
      have hq := List.find?_some hf
      have hm := List.mem_of_find?_eq_some hf
      simp only [decide_eq_true_eq] at hq
      simp only [Option.map_some'] at h
      have he : (b, c) = q := by
        cases q with
        | mk q1 q2 =>
            simp only at hq
            simp only [Option.some.injEq] at h
            simp [hq, h]
      exact he ▸ hm

theorem lookupChan_eq_some_of_mem {s : PlayerState} {b c : Nat}
    (hk : (s.currently_playing.map Prod.fst).Nodup)
    (hm : (b, c) ∈ s.currently_playing) : lookupChan s b = some c :=
  find_assoc_of_mem hk hm

theorem lookupChan_eq_none_iff {s : PlayerState} {b : Nat} :
    lookupChan s b = none ↔ ∀ q ∈ s.currently_playing, q.1 ≠ b := by
  unfold lookupChan
  rw [Option.map_eq_none', List.find?_eq_none]
  simp

theorem find_free_channel_mem {N : Nat} {busy : List Nat} {c : Nat}
    (h : find_free_channel N busy = some c) : c < N ∧ c ∉ busy := by
  unfold find_free_channel at h
  have h1 := List.mem_of_find?_eq_some h
  have h2 := List.find?_some h
  simp only [List.mem_range] at h1
  simp only [Bool.not_eq_true', decide_eq_false_iff_not] at h2
  exact ⟨h1, h2⟩

theorem find_free_channel_isSome {N ch : Nat} {busy : List Nat}
    (hlt : ch < N) (hnb : ch ∉ busy) :
    ∃ c, find_free_channel N busy = some c := by
  have h : (find_free_channel N busy).isSome = true := by
    unfold find_free_channel
    rw [List.find?_isSome]
    exact ⟨ch, List.mem_range.mpr hlt, by simpa using hnb⟩
  exact Option.isSome_iff_exists.mp h

theorem mem_setChannel {cp : List (Nat × Nat)} {b c : Nat} {p : Nat × Nat}
    (hp : p ∈ setChannel cp b c) : p = (b, c) ∨ (p ∈ cp ∧ p.1 ≠ b) := by
  unfold setChannel at hp
  split at hp
  · rcases List.mem_map.mp hp with ⟨q, hq, he⟩
    by_cases hqb : q.1 = b
    · left; rw [if_pos hqb] at he; exact he.symm
    · right; rw [if_neg hqb] at he; exact ⟨he ▸ hq, he ▸ hqb⟩
  · rcases List.mem_append.mp hp with hl | hr
    · rename_i hany
      right
      refine ⟨hl, fun hb => ?_⟩
      exact hany (List.any_eq_true.mpr ⟨p, hl, by simpa using hb⟩)
    · left; simpa using hr

theorem mem_setChannel_of_mem_ne {cp : List (Nat × Nat)} {b c : Nat}
    {p : Nat × Nat} (hp : p ∈ cp) (hne : p.1 ≠ b) : p ∈ setChannel cp b c := by
  unfold setChannel
  split
  · exact List.mem_map.mpr ⟨p, hp, by rw [if_neg hne]⟩
  · exact List.mem_append.mpr (Or.inl hp)

theorem setChannel_map_fst_of_any {cp : List (Nat × Nat)} {b c : Nat}
    (h : cp.any (fun p => decide (p.1 = b)) = true) :
    (setChannel cp b c).map Prod.fst = cp.map Prod.fst := by
  unfold setChannel
  rw [if_pos h, List.map_map]
  refine List.map_congr_left fun p _ => ?_
  by_cases hb : p.1 = b
  · simp [hb]
  · simp [hb]

theorem setChannel_map_fst_of_not_any {cp : List (Nat × Nat)} {b c : Nat}
    (h : ¬cp.any (fun p => decide (p.1 = b)) = true) :
    (setChannel cp b c).map Prod.fst = cp.map Prod.fst ++ [b] := by
  unfold setChannel
  rw [if_neg h, List.map_append]
  rfl

theorem find_map_key_update_of_ne {cp : List (Nat × Nat)} {b c o : Nat}
    (hob : o ≠ b) :
    (cp.map (fun p => if p.1 = b then (b, c) else p)).find?
        (fun p => decide (p.1 = o)) =
      cp.find? (fun p => decide (p.1 = o)) := by
  induction cp with
  | nil => rfl
  | cons q t ih =>
      simp only [List.map_cons]
      by_cases hqb : q.1 = b
      · rw [if_pos hqb]
        rw [List.find?_cons_of_neg _ (by simp [Ne.symm hob]),
          List.find?_cons_of_neg t (by simp [hqb, Ne.symm hob])]
        exact ih
      · rw [if_neg hqb]
        by_cases hqo : q.1 = o
        · rw [List.find?_cons_of_pos _ (by simpa using hqo),
            List.find?_cons_of_pos t (by simpa using hqo)]
        · rw [List.find?_cons_of_neg _ (by simpa using hqo),
            List.find?_cons_of_neg t (by simpa using hqo)]
          exact ih

theorem setChannel_find_other {cp : List (Nat × Nat)} {b c o : Nat}
    (hob : o ≠ b) :
    (setChannel cp b c).find? (fun p => decide (p.1 = o)) =
      cp.find? (fun p => decide (p.1 = o)) := by
  unfold setChannel
  split
  · exact find_map_key_update_of_ne hob
  · rw [List.find?_append]
    cases hf : cp.find? (fun p => decide (p.1 = o)) with
    | some q => rfl
    | none =>
        simp only [Option.none_or]
        rw [List.find?_cons_of_neg _ (by simp [Ne.symm hob])]
        rfl

theorem setChannel_find_self {cp : List (Nat × Nat)} {b c : Nat}
    (hk : (cp.map Prod.fst).Nodup) :
    ((setChannel cp b c).find? (fun p => decide (p.1 = b))).map Prod.snd =
      some c := by
  unfold setChannel
  by_cases hany : cp.any (fun p => decide (p.1 = b)) = true
  · rw [if_pos hany]
    rcases List.any_eq_true.mp hany with ⟨q, hq, hqb⟩
    simp only [decide_eq_true_eq] at hqb
    have hmem : (b, c) ∈ cp.map (fun p => if p.1 = b then (b, c) else p) :=
      List.mem_map.mpr ⟨q, hq, by rw [if_pos hqb]⟩
    have hk' : ((cp.map (fun p => if p.1 = b then (b, c) else p)).map
        Prod.fst).Nodup := by
      rw [List.map_map]
      have he : cp.map (Prod.fst ∘ fun p => if p.1 = b then (b, c) else p) =
          cp.map Prod.fst := by
        refine List.map_congr_left fun p _ => ?_
        by_cases hb : p.1 = b
        · simp [hb]
        · simp [hb]
      rw [he]; exact hk
    exact find_assoc_of_mem hk' hmem
  · rw [if_neg hany]
    have hnone : cp.find? (fun p => decide (p.1 = b)) = none := by
      rw [List.find?_eq_none]
      intro q hq hdq
      exact hany (List.any_eq_true.mpr ⟨q, hq, hdq⟩)
    rw [List.find?_append, hnone]
    simp [List.find?_cons_of_pos]

theorem lookupChan_setChannel_self {cp : List (Nat × Nat)} {busy : List Nat}
    {b c : Nat} (hk : (cp.map Prod.fst).Nodup) :
    lookupChan ⟨busy, setChannel cp b c⟩ b = some c := by
  unfold lookupChan
  exact setChannel_find_self hk

theorem lookupChan_setChannel_other {cp : List (Nat × Nat)} {busy busy' : List Nat}
    {b c o : Nat} (hob : o ≠ b) :
    lookupChan ⟨busy', setChannel cp b c⟩ o = lookupChan ⟨busy, cp⟩ o := by
  unfold lookupChan
  simp only
  rw [setChannel_find_other hob]

/-! ### Well-formedness invariants -/

/-- Weak well-formedness: busy channel ids are distinct and all channel ids
in sight belong to the pool `0 .. N-1`.  Preserved by triggers and by
natural playback completion. -/
def WFW (N : Nat) (s : PlayerState) : Prop :=
  s.busy.Nodup ∧ (∀ c ∈ s.busy, c < N) ∧ ∀ p ∈ s.currently_playing, p.2 < N

/-- Strong well-formedness: additionally the table has distinct keys,
distinct channel handles, and every recorded channel is still emitting.
Preserved by triggers, but not by natural completion. -/
def WFS (N : Nat) (s : PlayerState) : Prop :=
  s.busy.Nodup ∧ (∀ c ∈ s.busy, c < N) ∧
    (s.currently_playing.map Prod.fst).Nodup ∧
    (s.currently_playing.map Prod.snd).Nodup ∧
    ∀ p ∈ s.currently_playing, p.2 ∈ s.busy

theorem slp_busy_mem {cfg : Nat → TrackConfig} {pr : Int} {s : PlayerState}
    {c : Nat} (h : c ∈ (stop_lower_priority_sounds cfg pr s).busy) :
    c ∈ s.busy := by
  unfold stop_lower_priority_sounds at h
  exact (List.mem_filter.mp h).1

theorem slp_busy_sublist {cfg : Nat → TrackConfig} {pr : Int} {s : PlayerState} :
    (stop_lower_priority_sounds cfg pr s).busy.Sublist s.busy := by
  unfold stop_lower_priority_sounds
  exact List.filter_sublist _

theorem slp_cp_sublist {cfg : Nat → TrackConfig} {pr : Int} {s : PlayerState} :
    (stop_lower_priority_sounds cfg pr s).currently_playing.Sublist
      s.currently_playing := by
  unfold stop_lower_priority_sounds
  exact List.filter_sublist _

theorem iap_busy {s : PlayerState} : (is_anything_playing s).2.busy = s.busy := rfl

theorem iap_cp_sublist {s : PlayerState} :
    (is_anything_playing s).2.currently_playing.Sublist s.currently_playing := by
  unfold is_anything_playing
  exact List.filter_sublist _

theorem self_check_cases (sb : String) (s : PlayerState) (b : Nat) :
    self_check sb s b = none ∨ self_check sb s b = some s ∨
      ∃ ch, lookupChan s b = some ch ∧ ch ∈ s.busy ∧ sb = "restart" ∧
        self_check sb s b = some (chanStop s ch) := by
  unfold self_check
  split
  next ch hl =>
    split
    next hb =>
      split
      next hi => left; rfl
      next hi =>
        split
        next hr =>
          right; right
          exact ⟨ch, hl, by simpa [get_busy] using hb, hr, rfl⟩
        next hr => right; left; rfl
    next hb => right; left; rfl
  next hl => right; left; rfl

theorem self_check_state {sb : String} {s s1 : PlayerState} {b : Nat}
    (h : self_check sb s b = some s1) :
    s1 = s ∨ ∃ ch, lookupChan s b = some ch ∧ ch ∈ s.busy ∧
      sb = "restart" ∧ s1 = chanStop s ch := by
  rcases self_check_cases sb s b with hc | hc | ⟨ch, h1, h2, h3, hc⟩
  · rw [hc] at h; cases h
  · rw [hc] at h; exact Or.inl (Option.some.inj h).symm
  · rw [hc] at h; exact Or.inr ⟨ch, h1, h2, h3, (Option.some.inj h).symm⟩

theorem self_check_cp {sb : String} {s s1 : PlayerState} {b : Nat}
    (h : self_check sb s b = some s1) :
    s1.currently_playing = s.currently_playing := by
  rcases self_check_state h with rfl | ⟨ch, _, _, _, rfl⟩
  · rfl
  · rfl

theorem self_check_WFW {N : Nat} {sb : String} {s s1 : PlayerState} {b : Nat}
    (h : self_check sb s b = some s1) (hw : WFW N s) : WFW N s1 := by
  obtain ⟨h1, h2, h3⟩ := hw
  rcases self_check_state h with rfl | ⟨ch, _, _, _, rfl⟩
  · exact ⟨h1, h2, h3⟩
  · refine ⟨List.Nodup.sublist (List.erase_sublist ch s.busy) h1, ?_, h3⟩
    intro c hc
    exact h2 c (List.Sublist.mem hc (List.erase_sublist ch s.busy))

theorem cross_WFW {N : Nat} {cfg : Nat → TrackConfig} {mode : String}
    {pr : Int} {s : PlayerState} (hw : WFW N s) :
    WFW N (cross_interaction cfg mode pr s).1 := by
  obtain ⟨h1, h2, h3⟩ := hw
  unfold cross_interaction
  by_cases hi : mode = "interrupt"
  · rw [if_pos hi]
    exact ⟨List.nodup_nil, by simp [stop_all_sounds], by simp [stop_all_sounds]⟩
  · rw [if_neg hi]
    by_cases he : mode = "exclusive"
    · rw [if_pos he]
      refine ⟨h1, h2, ?_⟩
      intro p hp
      exact h3 p (List.Sublist.mem hp iap_cp_sublist)
    · rw [if_neg he]
      by_cases ho : mode = "overlay"
      · rw [if_pos ho]
        refine ⟨List.Nodup.sublist slp_busy_sublist h1, ?_, ?_⟩
        · intro c hc; exact h2 c (slp_busy_mem hc)
        · intro p hp; exact h3 p (List.Sublist.mem hp slp_cp_sublist)
      · rw [if_neg ho]
        exact ⟨h1, h2, h3⟩

theorem play_and_record_WFW {N : Nat} {s : PlayerState} {b : Nat}
    (hw : WFW N s) : WFW N (play_and_record N s b).1 := by
  obtain ⟨h1, h2, h3⟩ := hw
  unfold play_and_record
  cases hf : find_free_channel N s.busy with
  | none => exact ⟨h1, h2, h3⟩
  | some c =>
      obtain ⟨hcN, hcb⟩ := find_free_channel_mem hf
      refine ⟨List.nodup_cons.mpr ⟨hcb, h1⟩, ?_, ?_⟩
      · intro d hd
        rcases List.mem_cons.mp hd with rfl | hd
        · exact hcN
        · exact h2 d hd
      · intro p hp
        rcases mem_setChannel hp with rfl | ⟨hp, _⟩
        · exact hcN
        · exact h3 p hp

theorem play_sound_WFW {N : Nat} {sounds : List Bool}
    {cfg : Nat → TrackConfig} {s : PlayerState} {b : Nat} (hw : WFW N s) :
    WFW N (play_sound N sounds cfg s b).1 := by
  unfold play_sound
  by_cases hs : (!(sounds.getD b false)) = true
  · rw [if_pos hs]; exact hw
  · rw [if_neg hs]
    simp only
    cases hsc : self_check (cfg b).self s b with
    | none => exact hw
    | some s1 =>
        simp only
        have hw1 : WFW N s1 := self_check_WFW hsc hw
        have hw2 : WFW N (cross_interaction cfg (cfg b).mode (cfg b).priority s1).1 :=
          cross_WFW hw1
        by_cases hb : (cross_interaction cfg (cfg b).mode (cfg b).priority s1).2 = true
        · rw [if_pos hb]; exact hw2
        · rw [if_neg hb]; exact play_and_record_WFW hw2

theorem Step_WFW {N : Nat} {sounds : List Bool} {cfg : Nat → TrackConfig}
    {s s' : PlayerState} (h : Step N sounds cfg s s') (hw : WFW N s) :
    WFW N s' := by
  cases h with
  | trigger b => exact play_sound_WFW hw
  | finish c =>
      obtain ⟨h1, h2, h3⟩ := hw
      refine ⟨List.Nodup.sublist (List.erase_sublist c s.busy) h1, ?_, h3⟩
      intro d hd
      exact h2 d (List.Sublist.mem hd (List.erase_sublist c s.busy))

theorem initState_WFW {N : Nat} : WFW N initState :=
  ⟨List.nodup_nil, by simp [initState], by simp [initState]⟩

theorem Reachable_WFW {N : Nat} {sounds : List Bool} {cfg : Nat → TrackConfig}
    {s : PlayerState} (h : Reachable N sounds cfg s) : WFW N s := by
  induction h with
  | refl => exact initState_WFW
  | tail _ hstep ih => exact Step_WFW hstep ih

/-! ### Evaluation lemmas for the branches of `play_sound` -/

theorem self_check_restart {s : PlayerState} {b ch : Nat}
    (hl : lookupChan s b = some ch) (hb : ch ∈ s.busy) :
    self_check "restart" s b = some (chanStop s ch) := by
  unfold self_check
  rw [hl]
  simp [get_busy, hb]

theorem self_check_ignore {s : PlayerState} {b ch : Nat}
    (hl : lookupChan s b = some ch) (hb : ch ∈ s.busy) :
    self_check "ignore" s b = none := by
  unfold self_check
  rw [hl]
  simp [get_busy, hb]

theorem self_check_not_busy {sb : String} {s : PlayerState} {b : Nat}
    (h : sourceBusy s b = false) : self_check sb s b = some s := by
  unfold sourceBusy at h
  unfold self_check
  cases hl : lookupChan s b with
  | none => rfl
  | some ch =>
      rw [hl] at h
      show (if get_busy s ch = true then
          if sb = "ignore" then none
          else if sb = "restart" then some (chanStop s ch) else some s
        else some s) = some s
      rw [if_neg (by simp [show get_busy s ch = false from h])]

theorem self_check_fallthrough {sb : String} {s : PlayerState} {b : Nat}
    (h1 : sb ≠ "ignore") (h2 : sb ≠ "restart") : self_check sb s b = some s := by
  unfold self_check
  cases hl : lookupChan s b with
  | none => rfl
  | some ch =>
      by_cases hb : get_busy s ch = true
      · simp only [hb, if_true, if_neg h1, if_neg h2]
      · simp only [hb]
        rfl

theorem cross_interrupt {cfg : Nat → TrackConfig} {pr : Int} {s : PlayerState} :
    cross_interaction cfg "interrupt" pr s = (stop_all_sounds s, false) := by
  unfold cross_interaction
  simp

theorem cross_exclusive {cfg : Nat → TrackConfig} {pr : Int} {s : PlayerState} :
    cross_interaction cfg "exclusive" pr s =
      ((is_anything_playing s).2, (is_anything_playing s).1) := by
  unfold cross_interaction
  simp

theorem cross_overlay {cfg : Nat → TrackConfig} {pr : Int} {s : PlayerState} :
    cross_interaction cfg "overlay" pr s =
      (stop_lower_priority_sounds cfg pr s, false) := by
  unfold cross_interaction
  simp

theorem cross_other {cfg : Nat → TrackConfig} {mode : String} {pr : Int}
    {s : PlayerState} (h1 : mode ≠ "interrupt") (h2 : mode ≠ "exclusive")
    (h3 : mode ≠ "overlay") : cross_interaction cfg mode pr s = (s, false) := by
  unfold cross_interaction
  rw [if_neg h1, if_neg h2, if_neg h3]

theorem play_sound_eq_noSound {N : Nat} {sounds : List Bool}
    {cfg : Nat → TrackConfig} {s : PlayerState} {b : Nat}
    (hs : sounds.getD b false = false) :
    play_sound N sounds cfg s b = (s, PlayResult.noSound) := by
  unfold play_sound
  rw [if_pos (by rw [hs]; rfl)]

theorem play_sound_eq_ignored {N : Nat} {sounds : List Bool}
    {cfg : Nat → TrackConfig} {s : PlayerState} {b : Nat}
    (hs : sounds.getD b false = true)
    (hsc : self_check (cfg b).self s b = none) :
    play_sound N sounds cfg s b = (s, PlayResult.ignored) := by
  unfold play_sound
  rw [if_neg (by rw [hs]; simp), hsc]

theorem play_sound_eq_of_self {N : Nat} {sounds : List Bool}
    {cfg : Nat → TrackConfig} {s s1 : PlayerState} {b : Nat}
    (hs : sounds.getD b false = true)
    (hsc : self_check (cfg b).self s b = some s1) :
    play_sound N sounds cfg s b =
      (if (cross_interaction cfg (cfg b).mode (cfg b).priority s1).2 then
        ((cross_interaction cfg (cfg b).mode (cfg b).priority s1).1,
          PlayResult.blocked)
      else
        play_and_record N
          (cross_interaction cfg (cfg b).mode (cfg b).priority s1).1 b) := by
  unfold play_sound
  rw [if_neg (by rw [hs]; simp), hsc]

/-! ### After a restart self-stop the start attempt cannot fail -/

theorem cross_not_mem_busy {cfg : Nat → TrackConfig} {mode : String} {pr : Int}
    {s : PlayerState} {ch : Nat} (hnb : ch ∉ s.busy) :
    ch ∉ (cross_interaction cfg mode pr s).1.busy := by
  by_cases hi : mode = "interrupt"
  · rw [hi, cross_interrupt]
    simp [stop_all_sounds]
  · by_cases he : mode = "exclusive"
    · rw [he, cross_exclusive]
      simpa [iap_busy] using hnb
    · by_cases ho : mode = "overlay"
      · rw [ho, cross_overlay]
        intro hmem
        exact hnb (slp_busy_mem hmem)
      · rw [cross_other hi he ho]
        exact hnb

theorem restart_busy_not_dropped {N : Nat} {sounds : List Bool}
    {cfg : Nat → TrackConfig} {s : PlayerState} {b ch : Nat}
    (hw : WFW N s) (hl : lookupChan s b = some ch) (hbusy : ch ∈ s.busy)
    (hr : (cfg b).self = "restart") :
    (play_sound N sounds cfg s b).2 ≠ PlayResult.dropped := by
  obtain ⟨hnd, hbN, hcpN⟩ := hw
  have hchN : ch < N := hcpN (b, ch) (mem_of_lookupChan_eq_some hl)
  by_cases hs : sounds.getD b false = true
  case neg =>
    have hs' : sounds.getD b false = false := by simpa using hs
    rw [play_sound_eq_noSound hs']
    simp
  case pos =>
    have hsc : self_check (cfg b).self s b = some (chanStop s ch) := by
      rw [hr]; exact self_check_restart hl hbusy
    rw [play_sound_eq_of_self hs hsc]
    have hch1 : ch ∉ (chanStop s ch).busy := by
      intro hmem
      exact ((List.Nodup.mem_erase_iff hnd).mp hmem).1 rfl
    have hch2 : ch ∉
        (cross_interaction cfg (cfg b).mode (cfg b).priority (chanStop s ch)).1.busy :=
      cross_not_mem_busy hch1
    by_cases hbl :
        (cross_interaction cfg (cfg b).mode (cfg b).priority (chanStop s ch)).2 = true
    · rw [if_pos hbl]; simp
    · rw [if_neg hbl]
      unfold play_and_record
      obtain ⟨c, hc⟩ := find_free_channel_isSome hchN hch2
      rw [hc]
      simp

/-! ### Membership characterizations of the two purge-style helpers -/

/-- The `to_remove` list computed by `stop_lower_priority_sounds`. -/
def slpRemoved (cfg : Nat → TrackConfig) (pr : Int) (s : PlayerState) :
    List (Nat × Nat) :=
  s.currently_playing.filter
    (fun p => get_busy s p.2 && decide ((cfg p.1).priority < pr))

/-- The `to_remove` list computed by `is_anything_playing`. -/
def iapRemoved (s : PlayerState) : List (Nat × Nat) :=
  s.currently_playing.filter (fun p => !get_busy s p.2)

theorem slp_busy_eq {cfg : Nat → TrackConfig} {pr : Int} {s : PlayerState} :
    (stop_lower_priority_sounds cfg pr s).busy =
      s.busy.filter
        (fun c => !decide (c ∈ (slpRemoved cfg pr s).map Prod.snd)) := rfl

theorem slp_cp_eq {cfg : Nat → TrackConfig} {pr : Int} {s : PlayerState} :
    (stop_lower_priority_sounds cfg pr s).currently_playing =
      s.currently_playing.filter
        (fun p => !decide (p.1 ∈ (slpRemoved cfg pr s).map Prod.fst)) := rfl

theorem iap_cp_eq {s : PlayerState} :
    (is_anything_playing s).2.currently_playing =
      s.currently_playing.filter
        (fun p => !decide (p.1 ∈ (iapRemoved s).map Prod.fst)) := rfl

theorem iap_fst_eq {s : PlayerState} :
    (is_anything_playing s).1 =
      decide (0 < (is_anything_playing s).2.currently_playing.length) := rfl

theorem mem_slpRemoved {cfg : Nat → TrackConfig} {pr : Int} {s : PlayerState}
    {q : Nat × Nat} :
    q ∈ slpRemoved cfg pr s ↔
      q ∈ s.currently_playing ∧ q.2 ∈ s.busy ∧ (cfg q.1).priority < pr := by
  unfold slpRemoved
  rw [List.mem_filter]
  simp [get_busy, and_assoc]

theorem mem_iapRemoved {s : PlayerState} {q : Nat × Nat} :
    q ∈ iapRemoved s ↔ q ∈ s.currently_playing ∧ q.2 ∉ s.busy := by
  unfold iapRemoved
  rw [List.mem_filter]
  simp [get_busy]

theorem slp_cp_mem {cfg : Nat → TrackConfig} {pr : Int} {s : PlayerState}
    {p : Nat × Nat} (hk : (s.currently_playing.map Prod.fst).Nodup) :
    p ∈ (stop_lower_priority_sounds cfg pr s).currently_playing ↔
      p ∈ s.currently_playing ∧
        ¬(p.2 ∈ s.busy ∧ (cfg p.1).priority < pr) := by
  rw [slp_cp_eq]
  simp only [List.mem_filter, Bool.not_eq_true', decide_eq_false_iff_not]
  constructor
  · rintro ⟨hpcp, hdec⟩
    refine ⟨hpcp, fun hbad => ?_⟩
    exact hdec (List.mem_map.mpr
      ⟨p, mem_slpRemoved.mpr ⟨hpcp, hbad.1, hbad.2⟩, rfl⟩)
  · rintro ⟨hpcp, hnot⟩
    refine ⟨hpcp, fun hin => ?_⟩
    rcases List.mem_map.mp hin with ⟨q, hq, hq1⟩
    have hq' := mem_slpRemoved.mp hq
    have heq : q = p := List.inj_on_of_nodup_map hk hq'.1 hpcp hq1
    exact hnot (heq ▸ ⟨hq'.2.1, hq'.2.2⟩)

theorem slp_busy_mem_iff {cfg : Nat → TrackConfig} {pr : Int} {s : PlayerState}
    {c : Nat} :
    c ∈ (stop_lower_priority_sounds cfg pr s).busy ↔
      c ∈ s.busy ∧ ∀ q ∈ slpRemoved cfg pr s, q.2 ≠ c := by
  rw [slp_busy_eq]
  simp only [List.mem_filter, Bool.not_eq_true', decide_eq_false_iff_not]
  constructor
  · rintro ⟨hc, hnm⟩
    exact ⟨hc, fun q hq he => hnm (List.mem_map.mpr ⟨q, hq, he⟩)⟩
  · rintro ⟨hc, hall⟩
    refine ⟨hc, fun hin => ?_⟩
    rcases List.mem_map.mp hin with ⟨q, hq, hq2⟩
    exact hall q hq hq2

theorem iap_cp_mem {s : PlayerState} {p : Nat × Nat}
    (hk : (s.currently_playing.map Prod.fst).Nodup) :
    p ∈ (is_anything_playing s).2.currently_playing ↔
      p ∈ s.currently_playing ∧ p.2 ∈ s.busy := by
  rw [iap_cp_eq]
  simp only [List.mem_filter, Bool.not_eq_true', decide_eq_false_iff_not]
  constructor
  · rintro ⟨hpcp, hdec⟩
    refine ⟨hpcp, ?_⟩
    by_contra hnb
    exact hdec (List.mem_map.mpr ⟨p, mem_iapRemoved.mpr ⟨hpcp, hnb⟩, rfl⟩)
  · rintro ⟨hpcp, hbusy⟩
    refine ⟨hpcp, fun hin => ?_⟩
    rcases List.mem_map.mp hin with ⟨q, hq, hq1⟩
    have hq' := mem_iapRemoved.mp hq
    have heq : q = p := List.inj_on_of_nodup_map hk hq'.1 hpcp hq1
    exact hq'.2 (heq ▸ hbusy)

theorem iap_fst_true_iff {s : PlayerState}
    (hk : (s.currently_playing.map Prod.fst).Nodup) :
    (is_anything_playing s).1 = true ↔
      ∃ p ∈ s.currently_playing, p.2 ∈ s.busy := by
  constructor
  · intro h
    rw [iap_fst_eq] at h
    have hlen := of_decide_eq_true h
    rcases List.exists_mem_of_ne_nil _ (List.length_pos.mp hlen) with ⟨p, hp⟩
    have hp' := (iap_cp_mem hk).mp hp
    exact ⟨p, hp'.1, hp'.2⟩
  · rintro ⟨p, hp, hb⟩
    have hmem : p ∈ (is_anything_playing s).2.currently_playing :=
      (iap_cp_mem hk).mpr ⟨hp, hb⟩
    rw [iap_fst_eq]
    exact decide_eq_true (List.length_pos.mpr (List.ne_nil_of_mem hmem))

/-! ### Preservation of strong well-formedness by one trigger -/

theorem cross_fst_interrupt {cfg : Nat → TrackConfig} {pr : Int} {s : PlayerState} :
    (cross_interaction cfg "interrupt" pr s).1 = stop_all_sounds s := by
  rw [cross_interrupt]

theorem cross_snd_interrupt {cfg : Nat → TrackConfig} {pr : Int} {s : PlayerState} :
    (cross_interaction cfg "interrupt" pr s).2 = false := by
  rw [cross_interrupt]

theorem cross_fst_exclusive {cfg : Nat → TrackConfig} {pr : Int} {s : PlayerState} :
    (cross_interaction cfg "exclusive" pr s).1 = (is_anything_playing s).2 := by
  rw [cross_exclusive]

theorem cross_snd_exclusive {cfg : Nat → TrackConfig} {pr : Int} {s : PlayerState} :
    (cross_interaction cfg "exclusive" pr s).2 = (is_anything_playing s).1 := by
  rw [cross_exclusive]

theorem cross_fst_overlay {cfg : Nat → TrackConfig} {pr : Int} {s : PlayerState} :
    (cross_interaction cfg "overlay" pr s).1 =
      stop_lower_priority_sounds cfg pr s := by
  rw [cross_overlay]

theorem cross_snd_overlay {cfg : Nat → TrackConfig} {pr : Int} {s : PlayerState} :
    (cross_interaction cfg "overlay" pr s).2 = false := by
  rw [cross_overlay]

theorem cross_fst_other {cfg : Nat → TrackConfig} {mode : String} {pr : Int}
    {s : PlayerState} (h1 : mode ≠ "interrupt") (h2 : mode ≠ "exclusive")
    (h3 : mode ≠ "overlay") : (cross_interaction cfg mode pr s).1 = s := by
  rw [cross_other h1 h2 h3]

theorem cross_snd_other {cfg : Nat → TrackConfig} {mode : String} {pr : Int}
    {s : PlayerState} (h1 : mode ≠ "interrupt") (h2 : mode ≠ "exclusive")
    (h3 : mode ≠ "overlay") : (cross_interaction cfg mode pr s).2 = false := by
  rw [cross_other h1 h2 h3]

theorem par_WFS_core {N : Nat} {s : PlayerState} {b c : Nat}
    (h1 : s.busy.Nodup) (h2 : ∀ d ∈ s.busy, d < N)
    (h3 : (s.currently_playing.map Prod.fst).Nodup)
    (h4 : (s.currently_playing.map Prod.snd).Nodup)
    (h5 : ∀ p ∈ s.currently_playing, p.1 ≠ b → p.2 ∈ s.busy)
    (hc : find_free_channel N s.busy = some c) :
    WFS N ⟨c :: s.busy, setChannel s.currently_playing b c⟩ := by
  obtain ⟨hcN, hcb⟩ := find_free_channel_mem hc
  refine ⟨List.nodup_cons.mpr ⟨hcb, h1⟩, ?_, ?_, ?_, ?_⟩
  · intro d hd
    rcases List.mem_cons.mp hd with rfl | hd
    · exact hcN
    · exact h2 d hd
  · show ((setChannel s.currently_playing b c).map Prod.fst).Nodup
    by_cases hany : s.currently_playing.any (fun p => decide (p.1 = b)) = true
    · rw [setChannel_map_fst_of_any hany]; exact h3
    · rw [setChannel_map_fst_of_not_any hany, List.nodup_append]
      refine ⟨h3, List.nodup_singleton b, ?_⟩
      intro a ha hmem
      rw [List.mem_singleton] at hmem
      subst hmem
      rcases List.mem_map.mp ha with ⟨q, hq, hq1⟩
      exact hany (List.any_eq_true.mpr ⟨q, hq, by simpa using hq1⟩)
  · show ((setChannel s.currently_playing b c).map Prod.snd).Nodup
    unfold setChannel
    by_cases hany : s.currently_playing.any (fun p => decide (p.1 = b)) = true
    · rw [if_pos hany]
      have hmm : (s.currently_playing.map
            (fun p => if p.1 = b then (b, c) else p)).map Prod.snd =
          s.currently_playing.map (fun p => if p.1 = b then c else p.2) := by
        rw [List.map_map]
        refine List.map_congr_left fun p _ => ?_
        by_cases hb : p.1 = b
        · simp [hb]
        · simp [hb]
      rw [hmm]
      refine List.Nodup.map_on ?_ (List.Nodup.of_map Prod.fst h3)
      intro x hx y hy hxy
      by_cases hxb : x.1 = b <;> by_cases hyb : y.1 = b
      · exact List.inj_on_of_nodup_map h3 hx hy (by rw [hxb, hyb])
      · rw [if_pos hxb, if_neg hyb] at hxy
        have hcbusy : c ∈ s.busy := by rw [hxy]; exact h5 y hy hyb
        exact absurd hcbusy hcb
      · rw [if_neg hxb, if_pos hyb] at hxy
        have hcbusy : c ∈ s.busy := by rw [← hxy]; exact h5 x hx hxb
        exact absurd hcbusy hcb
      · rw [if_neg hxb, if_neg hyb] at hxy
        exact List.inj_on_of_nodup_map h4 hx hy hxy
    · rw [if_neg hany, List.map_append, List.nodup_append]
      refine ⟨h4, List.nodup_singleton c, ?_⟩
      intro a ha hmem
      simp only [List.map_cons, List.map_nil, List.mem_singleton] at hmem
      rcases List.mem_map.mp ha with ⟨q, hq, hq2⟩
      have hqb : q.1 ≠ b := fun hb =>
        hany (List.any_eq_true.mpr ⟨q, hq, by simpa using hb⟩)
      have hbad : c ∈ s.busy := by rw [← hmem, ← hq2]; exact h5 q hq hqb
      exact hcb hbad
  · intro p hp
    rcases mem_setChannel hp with rfl | ⟨hmem, hne⟩
    · exact List.mem_cons_self c s.busy
    · exact List.mem_cons_of_mem c (h5 p hmem hne)

theorem par_WFS_of_WFS {N : Nat} {s : PlayerState} {b : Nat} (hw : WFS N s) :
    WFS N (play_and_record N s b).1 := by
  obtain ⟨h1, h2, h3, h4, h5⟩ := hw
  unfold play_and_record
  cases hf : find_free_channel N s.busy with
  | none => exact ⟨h1, h2, h3, h4, h5⟩
  | some c => exact par_WFS_core h1 h2 h3 h4 (fun p hp _ => h5 p hp) hf

theorem slp_cover {cfg : Nat → TrackConfig} {pr : Int} {s : PlayerState}
    {p : Nat × Nat} (hk : (s.currently_playing.map Prod.fst).Nodup)
    (h4 : (s.currently_playing.map Prod.snd).Nodup)
    (hp : p ∈ (stop_lower_priority_sounds cfg pr s).currently_playing)
    (hb : p.2 ∈ s.busy) :
    p.2 ∈ (stop_lower_priority_sounds cfg pr s).busy := by
  have hp' := (slp_cp_mem hk).mp hp
  rw [slp_busy_mem_iff]
  refine ⟨hb, fun q hq he => ?_⟩
  have hq' := mem_slpRemoved.mp hq
  have heq : q = p := List.inj_on_of_nodup_map h4 hq'.1 hp'.1 he
  exact hp'.2 (heq ▸ ⟨hq'.2.1, hq'.2.2⟩)

theorem slp_nodups {N : Nat} {cfg : Nat → TrackConfig} {pr : Int}
    {s : PlayerState} (h1 : s.busy.Nodup) (h2 : ∀ d ∈ s.busy, d < N)
    (h3 : (s.currently_playing.map Prod.fst).Nodup)
    (h4 : (s.currently_playing.map Prod.snd).Nodup) :
    (stop_lower_priority_sounds cfg pr s).busy.Nodup ∧
      (∀ d ∈ (stop_lower_priority_sounds cfg pr s).busy, d < N) ∧
      ((stop_lower_priority_sounds cfg pr s).currently_playing.map
        Prod.fst).Nodup ∧
      ((stop_lower_priority_sounds cfg pr s).currently_playing.map
        Prod.snd).Nodup := by
  refine ⟨List.Nodup.sublist slp_busy_sublist h1, ?_, ?_, ?_⟩
  · intro d hd
    exact h2 d (slp_busy_mem hd)
  · exact List.Nodup.sublist (List.Sublist.map Prod.fst slp_cp_sublist) h3
  · exact List.Nodup.sublist (List.Sublist.map Prod.snd slp_cp_sublist) h4

theorem slp_WFS {N : Nat} {cfg : Nat → TrackConfig} {pr : Int}
    {s : PlayerState} (hw : WFS N s) :
    WFS N (stop_lower_priority_sounds cfg pr s) := by
  obtain ⟨h1, h2, h3, h4, h5⟩ := hw
  obtain ⟨k1, k2, k3, k4⟩ := slp_nodups h1 h2 h3 h4
  refine ⟨k1, k2, k3, k4, ?_⟩
  intro p hp
  exact slp_cover h3 h4 hp (h5 p (List.Sublist.mem hp slp_cp_sublist))

theorem iap_WFS {N : Nat} {s : PlayerState}
    (h1 : s.busy.Nodup) (h2 : ∀ d ∈ s.busy, d < N)
    (h3 : (s.currently_playing.map Prod.fst).Nodup)
    (h4 : (s.currently_playing.map Prod.snd).Nodup) :
    WFS N (is_anything_playing s).2 := by
  refine ⟨?_, ?_, ?_, ?_, ?_⟩
  · rw [iap_busy]; exact h1
  · rw [iap_busy]; exact h2
  · exact List.Nodup.sublist (List.Sublist.map Prod.fst iap_cp_sublist) h3
  · exact List.Nodup.sublist (List.Sublist.map Prod.snd iap_cp_sublist) h4
  · intro p hp
    rw [iap_busy]
    exact ((iap_cp_mem h3).mp hp).2

theorem stop_all_WFS {N : Nat} {s : PlayerState} :
    WFS N (stop_all_sounds s) := by
  refine ⟨List.nodup_nil, ?_, ?_, ?_, ?_⟩ <;> simp [stop_all_sounds]

theorem cross_WFS_full {N : Nat} {cfg : Nat → TrackConfig} {mode : String}
    {pr : Int} {s : PlayerState} (hw : WFS N s) :
    WFS N (cross_interaction cfg mode pr s).1 := by
  by_cases hi : mode = "interrupt"
  · rw [hi, cross_fst_interrupt]; exact stop_all_WFS
  · by_cases he : mode = "exclusive"
    · rw [he, cross_fst_exclusive]
      exact iap_WFS hw.1 hw.2.1 hw.2.2.1 hw.2.2.2.1
    · by_cases ho : mode = "overlay"
      · rw [ho, cross_fst_overlay]; exact slp_WFS hw
      · rw [cross_fst_other hi he ho]; exact hw

theorem chanStop_facts {N : Nat} {s : PlayerState} {b ch : Nat}
    (hw : WFS N s) (hl : lookupChan s b = some ch) :
    (chanStop s ch).busy.Nodup ∧
      (∀ d ∈ (chanStop s ch).busy, d < N) ∧
      ((chanStop s ch).currently_playing.map Prod.fst).Nodup ∧
      ((chanStop s ch).currently_playing.map Prod.snd).Nodup ∧
      (∀ p ∈ (chanStop s ch).currently_playing, p.1 ≠ b →
        p.2 ∈ (chanStop s ch).busy) ∧
      ch ∉ (chanStop s ch).busy ∧ ch < N := by
  obtain ⟨h1, h2, h3, h4, h5⟩ := hw
  have hmem : (b, ch) ∈ s.currently_playing := mem_of_lookupChan_eq_some hl
  have hchb : ch ∈ s.busy := h5 (b, ch) hmem
  refine ⟨List.Nodup.sublist (List.erase_sublist ch s.busy) h1, ?_, h3, h4,
    ?_, ?_, h2 ch hchb⟩
  · intro d hd
    exact h2 d (List.Sublist.mem hd (List.erase_sublist ch s.busy))
  · intro p hp hne
    have hpb : p.2 ∈ s.busy := h5 p hp
    have hpch : p.2 ≠ ch := by
      intro he
      have heq : p = (b, ch) := List.inj_on_of_nodup_map h4 hp hmem he
      exact hne (by rw [heq])
    exact (List.mem_erase_of_ne hpch).mpr hpb
  · intro hmm
    exact ((List.Nodup.mem_erase_iff h1).mp hmm).1 rfl

theorem play_sound_WFS {N : Nat} {sounds : List Bool} {cfg : Nat → TrackConfig}
    {s : PlayerState} {b : Nat} (hw : WFS N s) :
    WFS N (play_sound N sounds cfg s b).1 := by
  by_cases hs : sounds.getD b false = true
  case neg =>
    rw [play_sound_eq_noSound (by simpa using hs)]
    exact hw
  case pos =>
    cases hsc : self_check (cfg b).self s b with
    | none =>
        rw [play_sound_eq_ignored hs hsc]
        exact hw
    | some s1 =>
        rw [play_sound_eq_of_self hs hsc]
        rcases self_check_state hsc with rfl | ⟨ch, hl, hbusy, hsb, rfl⟩
        · by_cases hbl :
              (cross_interaction cfg (cfg b).mode (cfg b).priority s1).2 = true
          · rw [if_pos hbl]
            exact cross_WFS_full hw
          · rw [if_neg hbl]
            exact par_WFS_of_WFS (cross_WFS_full hw)
        · obtain ⟨k1, k2, k3, k4, k5, k6, k7⟩ := chanStop_facts hw hl
          by_cases hi : (cfg b).mode = "interrupt"
          · rw [hi, cross_snd_interrupt, if_neg (by simp), cross_fst_interrupt]
            exact par_WFS_of_WFS stop_all_WFS
          · by_cases he : (cfg b).mode = "exclusive"
            · rw [he]
              have hwx : WFS N (is_anything_playing (chanStop s ch)).2 :=
                iap_WFS k1 k2 k3 k4
              by_cases hbl : (cross_interaction cfg "exclusive"
                  (cfg b).priority (chanStop s ch)).2 = true
              · rw [if_pos hbl, cross_fst_exclusive]
                exact hwx
              · rw [if_neg hbl, cross_fst_exclusive]
                exact par_WFS_of_WFS hwx
            · by_cases ho : (cfg b).mode = "overlay"
              · rw [ho, cross_snd_overlay, if_neg (by simp), cross_fst_overlay]
                obtain ⟨m1, m2, m3, m4⟩ :=
                  @slp_nodups N cfg ((cfg b).priority) (chanStop s ch) k1 k2 k3 k4
                have m5 : ∀ p ∈ (stop_lower_priority_sounds cfg (cfg b).priority
                    (chanStop s ch)).currently_playing, p.1 ≠ b →
                    p.2 ∈ (stop_lower_priority_sounds cfg (cfg b).priority
                      (chanStop s ch)).busy := by
                  intro p hp hne
                  exact slp_cover k3 k4 hp
                    (k5 p (List.Sublist.mem hp slp_cp_sublist) hne)
                have hch2 : ch ∉ (stop_lower_priority_sounds cfg (cfg b).priority
                    (chanStop s ch)).busy := fun hmm => k6 (slp_busy_mem hmm)
                obtain ⟨c, hc⟩ := find_free_channel_isSome k7 hch2
                unfold play_and_record
                rw [hc]
                exact par_WFS_core m1 m2 m3 m4 m5 hc
              · rw [cross_snd_other hi he ho, if_neg (by simp),
                  cross_fst_other hi he ho]
                obtain ⟨c, hc⟩ := find_free_channel_isSome k7 k6
                unfold play_and_record
                rw [hc]
                exact par_WFS_core k1 k2 k3 k4 k5 hc

theorem TriggerStep_WFS {N : Nat} {sounds : List Bool}
    {cfg : Nat → TrackConfig} {s s' : PlayerState}
    (h : TriggerStep N sounds cfg s s') (hw : WFS N s) : WFS N s' := by
  cases h with
  | trigger b => exact play_sound_WFS hw

theorem initState_WFS {N : Nat} : WFS N initState := by
  refine ⟨List.nodup_nil, ?_, ?_, ?_, ?_⟩ <;> simp [initState]

theorem TriggerReachable_WFS {N : Nat} {sounds : List Bool}
    {cfg : Nat → TrackConfig} {s : PlayerState}
    (h : TriggerReachable N sounds cfg s) : WFS N s := by
  induction h with
  | refl => exact initState_WFS
  | tail _ hstep ih => exact TriggerStep_WFS hstep ih

theorem self_check_none {sb : String} {s : PlayerState} {b : Nat}
    (h : self_check sb s b = none) :
    sb = "ignore" ∧ sourceBusy s b = true := by
  unfold self_check at h
  unfold sourceBusy
  cases hl : lookupChan s b with
  | none => rw [hl] at h; cases h
  | some ch =>
      rw [hl] at h
      by_cases hb : get_busy s ch = true
      · refine ⟨?_, hb⟩
        by_cases hi : sb = "ignore"
        · exact hi
        · exfalso
          have h' : (if get_busy s ch = true then
              if sb = "ignore" then none
              else if sb = "restart" then some (chanStop s ch) else some s
            else some s) = none := h
          rw [if_pos hb, if_neg hi] at h'
          by_cases hr : sb = "restart"
          · rw [if_pos hr] at h'; cases h'
          · rw [if_neg hr] at h'; cases h'
      · exfalso
        have h' : (if get_busy s ch = true then
            if sb = "ignore" then none
            else if sb = "restart" then some (chanStop s ch) else some s
          else some s) = none := h
        rw [if_neg hb] at h'
        cases h'

/-! ### The ten claims -/

/-- Claim C8: for a source with selfBehavior `ignore`, a trigger while it is
busy is aborted: the engine state is completely unchanged and in particular
the very same channel handle stays assigned to the source. -/
theorem claim_C8 {N : Nat} {sounds : List Bool} {cfg : Nat → TrackConfig}
    {s : PlayerState} {b ch : Nat}
    (hig : (cfg b).self = "ignore")
    (hl : lookupChan s b = some ch) (hbusy : ch ∈ s.busy) :
    (play_sound N sounds cfg s b).1 = s ∧
      lookupChan (play_sound N sounds cfg s b).1 b = some ch := by
  by_cases hs : sounds.getD b false = true
  · have hsc : self_check (cfg b).self s b = none := by
      rw [hig]; exact self_check_ignore hl hbusy
    rw [play_sound_eq_ignored hs hsc]
    exact ⟨rfl, hl⟩
  · rw [play_sound_eq_noSound (by simpa using hs)]
    exact ⟨rfl, hl⟩

theorem claim_C8_witness :
    (play_sound 8 soundsAll track_cfg ⟨[0], [(4, 0)]⟩ 4).1 =
        (⟨[0], [(4, 0)]⟩ : PlayerState) ∧
      lookupChan (play_sound 8 soundsAll track_cfg ⟨[0], [(4, 0)]⟩ 4).1 4 =
        some 0 :=
  claim_C8 (by decide) (by decide) (by decide)

/-- Claim C4: for an Interrupt-mode source whose trigger is not aborted by
self-interaction, every currently assigned source is stopped before the
start attempt: the start step runs on a state with no busy channel and an
empty assignment table, so no source other than the triggering one is busy
immediately before the start. -/
theorem claim_C4 {N : Nat} {sounds : List Bool} {cfg : Nat → TrackConfig}
    {s s1 : PlayerState} {b : Nat}
    (hs : sounds.getD b false = true)
    (hmode : (cfg b).mode = "interrupt")
    (hsc : self_check (cfg b).self s b = some s1) :
    play_sound N sounds cfg s b = play_and_record N (stop_all_sounds s1) b ∧
      (stop_all_sounds s1).busy = [] ∧
      (stop_all_sounds s1).currently_playing = [] := by
  rw [play_sound_eq_of_self hs hsc, hmode, cross_snd_interrupt,
    if_neg (by simp), cross_fst_interrupt]
  exact ⟨rfl, rfl, rfl⟩

theorem claim_C4_witness :
    play_sound 8 soundsAll track_cfg ⟨[1], [(2, 1)]⟩ 0 =
        play_and_record 8 (stop_all_sounds ⟨[1], [(2, 1)]⟩) 0 ∧
      (stop_all_sounds (⟨[1], [(2, 1)]⟩ : PlayerState)).busy = [] ∧
      (stop_all_sounds (⟨[1], [(2, 1)]⟩ : PlayerState)).currently_playing = [] :=
  claim_C4 (by decide) (by decide) (by decide)

/-- Claim C9: when a trigger reaches the start step and no free channel is
available, it reports the drop (`PlaybackDropped`), records no new
assignment, and returns exactly the state left by the earlier stop steps,
so every assignment not stopped earlier in the trigger is intact. -/
theorem claim_C9 {N : Nat} {sounds : List Bool} {cfg : Nat → TrackConfig}
    {s s1 : PlayerState} {b : Nat}
    (hs : sounds.getD b false = true)
    (hsc : self_check (cfg b).self s b = some s1)
    (hnb : (cross_interaction cfg (cfg b).mode (cfg b).priority s1).2 = false)
    (hfull : find_free_channel N
      (cross_interaction cfg (cfg b).mode (cfg b).priority s1).1.busy = none) :
    play_sound N sounds cfg s b =
      ((cross_interaction cfg (cfg b).mode (cfg b).priority s1).1,
        PlayResult.dropped) := by
  rw [play_sound_eq_of_self hs hsc, if_neg (by simp [hnb])]
  unfold play_and_record
  rw [hfull]

theorem claim_C9_witness :
    play_sound 1 soundsAll track_cfg ⟨[0], [(2, 0)]⟩ 3 =
      ((cross_interaction track_cfg (track_cfg 3).mode (track_cfg 3).priority
        ⟨[0], [(2, 0)]⟩).1, PlayResult.dropped) :=
  claim_C9 (by decide) (by decide) (by decide) (by decide)

/-- Claim C1 counterexample: source 3 has selfBehavior `queue`; triggering
it while it is busy is not treated like `ignore` — the trigger is not
aborted, the state changes (a second playback is started and the assignment
is replaced) and the reported outcome is not the ignore outcome. -/
theorem claim_C1_cex :
    (play_sound 8 soundsAll track_cfg ⟨[0], [(3, 0)]⟩ 3).1 ≠
        (⟨[0], [(3, 0)]⟩ : PlayerState) ∧
      (play_sound 8 soundsAll track_cfg ⟨[0], [(3, 0)]⟩ 3).2 ≠
        PlayResult.ignored := by
  decide

/-- Claim C1 (amended): `queue` self-behavior is a pure fall-through, not an
alias of `ignore`: a trigger of a busy Queue source is not aborted and does
not stop the source's own channel; it proceeds to cross-source interaction
and the start attempt exactly as if the source had not been busy. -/
theorem claim_C1_amended {N : Nat} {sounds : List Bool}
    {cfg : Nat → TrackConfig} {s : PlayerState} {b ch : Nat}
    (hq : (cfg b).self = "queue")
    (hs : sounds.getD b false = true)
    (hl : lookupChan s b = some ch) (hbusy : ch ∈ s.busy) :
    play_sound N sounds cfg s b =
      (if (cross_interaction cfg (cfg b).mode (cfg b).priority s).2 then
        ((cross_interaction cfg (cfg b).mode (cfg b).priority s).1,
          PlayResult.blocked)
      else play_and_record N
        (cross_interaction cfg (cfg b).mode (cfg b).priority s).1 b) := by
  have hsc : self_check (cfg b).self s b = some s := by
    rw [hq]
    exact self_check_fallthrough (by decide) (by decide)
  exact play_sound_eq_of_self hs hsc

theorem claim_C1_witness :
    play_sound 8 soundsAll track_cfg ⟨[0], [(3, 0)]⟩ 3 =
      (if (cross_interaction track_cfg (track_cfg 3).mode
          (track_cfg 3).priority ⟨[0], [(3, 0)]⟩).2 then
        ((cross_interaction track_cfg (track_cfg 3).mode
          (track_cfg 3).priority ⟨[0], [(3, 0)]⟩).1, PlayResult.blocked)
      else play_and_record 8 (cross_interaction track_cfg (track_cfg 3).mode
        (track_cfg 3).priority ⟨[0], [(3, 0)]⟩).1 3) :=
  @claim_C1_amended 8 soundsAll track_cfg ⟨[0], [(3, 0)]⟩ 3 0
    (by decide) (by decide) (by decide) (by decide)

/-- Claim C2 counterexample: source 4 is Exclusive; with source 2 busy and a
stale finished entry for source 1, the trigger reports Blocked but the
Channel Pool state is not completely unchanged — the stale assignment is
purged by the busy query. -/
theorem claim_C2_cex :
    (play_sound 8 soundsAll track_cfg ⟨[0], [(2, 0), (1, 1)]⟩ 4).2 =
        PlayResult.blocked ∧
      (play_sound 8 soundsAll track_cfg ⟨[0], [(2, 0), (1, 1)]⟩ 4).1 ≠
        (⟨[0], [(2, 0), (1, 1)]⟩ : PlayerState) := by
  decide

/-- Claim C2 (amended): for an Exclusive source that is not itself busy, if
any other source is busy the trigger reports Blocked and performs no stop
and no start — the busy channels are untouched — and the only change to the
assignment table is the lazy purge of entries whose channels had already
finished. -/
theorem claim_C2_amended {N : Nat} {sounds : List Bool}
    {cfg : Nat → TrackConfig} {s : PlayerState} {b o co : Nat}
    (hs : sounds.getD b false = true)
    (hmode : (cfg b).mode = "exclusive")
    (hnb : sourceBusy s b = false)
    (ho : o ≠ b) (hlo : lookupChan s o = some co) (hco : co ∈ s.busy)
    (hk : (s.currently_playing.map Prod.fst).Nodup) :
    play_sound N sounds cfg s b =
      ({ busy := s.busy,
         currently_playing := s.currently_playing.filter
           (fun p => !decide (p.1 ∈ (iapRemoved s).map Prod.fst)) },
       PlayResult.blocked) := by
  have hsc : self_check (cfg b).self s b = some s := self_check_not_busy hnb
  rw [play_sound_eq_of_self hs hsc, hmode]
  have hbl : (cross_interaction cfg "exclusive" (cfg b).priority s).2 = true := by
    rw [cross_snd_exclusive]
    exact (iap_fst_true_iff hk).mpr ⟨(o, co), mem_of_lookupChan_eq_some hlo, hco⟩
  rw [if_pos hbl, cross_fst_exclusive]
  rfl

theorem claim_C2_witness :
    play_sound 8 soundsAll track_cfg ⟨[0], [(2, 0), (1, 1)]⟩ 4 =
      (⟨[0], [(2, 0)]⟩, PlayResult.blocked) :=
  @claim_C2_amended 8 soundsAll track_cfg ⟨[0], [(2, 0), (1, 1)]⟩ 4 2 0
    (by decide) (by decide) (by decide) (by decide) (by decide) (by decide)
    (by decide)

/-- Claim C3 (amended): under Overlay, in any state whose assignment table
has pairwise-distinct keys and pairwise-distinct channel handles — true of
every state reachable by triggers alone; a natural playback completion can
leave a stale entry whose handle is then reassigned, and the rule fails in
such aliased states — for a trigger not aborted by self-interaction and for
every source other than the triggering one, exactly the busy sources of
strictly lower priority are stopped: a busy other source with priority below
the trigger's has no assignment afterwards, and a busy other source with
priority greater than or equal keeps exactly its assignment and its channel
keeps emitting (the triggering source itself may be stopped and restarted by
its own Restart self-behavior despite its equal priority). -/
theorem claim_C3_amended {N : Nat} {sounds : List Bool}
    {cfg : Nat → TrackConfig} {s : PlayerState} {b o co : Nat}
    (hs : sounds.getD b false = true)
    (hmode : (cfg b).mode = "overlay")
    (hnab : self_check (cfg b).self s b ≠ none)
    (hk : (s.currently_playing.map Prod.fst).Nodup)
    (hsn : (s.currently_playing.map Prod.snd).Nodup)
    (hob : o ≠ b) (hlo : lookupChan s o = some co) (hco : co ∈ s.busy) :
    ((cfg o).priority < (cfg b).priority →
      lookupChan (play_sound N sounds cfg s b).1 o = none) ∧
    ((cfg b).priority ≤ (cfg o).priority →
      lookupChan (play_sound N sounds cfg s b).1 o = some co ∧
        co ∈ (play_sound N sounds cfg s b).1.busy) := by
  obtain ⟨s1, hsc⟩ : ∃ s1, self_check (cfg b).self s b = some s1 := by
    cases hval : self_check (cfg b).self s b with
    | none => exact absurd hval hnab
    | some s1 => exact ⟨s1, rfl⟩
  rw [play_sound_eq_of_self hs hsc, hmode, cross_snd_overlay,
    if_neg (by simp), cross_fst_overlay]
  have hmo : (o, co) ∈ s.currently_playing := mem_of_lookupChan_eq_some hlo
  have hcp1 : s1.currently_playing = s.currently_playing := self_check_cp hsc
  have hk1 : (s1.currently_playing.map Prod.fst).Nodup := by
    rw [hcp1]; exact hk
  have hsn1 : (s1.currently_playing.map Prod.snd).Nodup := by
    rw [hcp1]; exact hsn
  have hmo1 : (o, co) ∈ s1.currently_playing := by rw [hcp1]; exact hmo
  have hco1 : co ∈ s1.busy := by
    rcases self_check_state hsc with rfl | ⟨ch, hl, hbusy, hsb, rfl⟩
    · exact hco
    · have hmb : (b, ch) ∈ s.currently_playing := mem_of_lookupChan_eq_some hl
      have hne : co ≠ ch := by
        intro he
        have heq : (o, co) = (b, ch) := List.inj_on_of_nodup_map hsn hmo hmb he
        exact hob (congrArg Prod.fst heq)
      exact (List.mem_erase_of_ne hne).mpr hco
  have hk2 : ((stop_lower_priority_sounds cfg (cfg b).priority
      s1).currently_playing.map Prod.fst).Nodup :=
    List.Nodup.sublist (List.Sublist.map Prod.fst slp_cp_sublist) hk1
  constructor
  · intro hlt
    have hnone : lookupChan
        (stop_lower_priority_sounds cfg (cfg b).priority s1) o = none := by
      rw [lookupChan_eq_none_iff]
      intro q hq hqo
      have hq' := (slp_cp_mem hk1).mp hq
      have heq : q = (o, co) :=
        List.inj_on_of_nodup_map hk1 hq'.1 hmo1 (by simpa using hqo)
      exact hq'.2 (heq ▸ ⟨hco1, hlt⟩)
    unfold play_and_record
    cases hf : find_free_channel N
        (stop_lower_priority_sounds cfg (cfg b).priority s1).busy with
    | none => exact hnone
    | some c =>
        show lookupChan ⟨c :: (stop_lower_priority_sounds cfg (cfg b).priority
          s1).busy, setChannel (stop_lower_priority_sounds cfg
          (cfg b).priority s1).currently_playing b c⟩ o = none
        exact Eq.trans
          (@lookupChan_setChannel_other
            (stop_lower_priority_sounds cfg (cfg b).priority s1).currently_playing
            (stop_lower_priority_sounds cfg (cfg b).priority s1).busy
            (c :: (stop_lower_priority_sounds cfg (cfg b).priority s1).busy)
            b c o hob)
          hnone
  · intro hge
    have hkept : (o, co) ∈ (stop_lower_priority_sounds cfg
        (cfg b).priority s1).currently_playing :=
      (slp_cp_mem hk1).mpr ⟨hmo1, fun hbad => absurd hbad.2 (not_lt.mpr hge)⟩
    have hcos2 : co ∈ (stop_lower_priority_sounds cfg (cfg b).priority s1).busy :=
      slp_cover hk1 hsn1 hkept hco1
    have hsome : lookupChan
        (stop_lower_priority_sounds cfg (cfg b).priority s1) o = some co :=
      lookupChan_eq_some_of_mem hk2 hkept
    unfold play_and_record
    cases hf : find_free_channel N
        (stop_lower_priority_sounds cfg (cfg b).priority s1).busy with
    | none => exact ⟨hsome, hcos2⟩
    | some c =>
        refine ⟨?_, List.mem_cons_of_mem c hcos2⟩
        show lookupChan ⟨c :: (stop_lower_priority_sounds cfg (cfg b).priority
          s1).busy, setChannel (stop_lower_priority_sounds cfg
          (cfg b).priority s1).currently_playing b c⟩ o = some co
        exact Eq.trans
          (@lookupChan_setChannel_other
            (stop_lower_priority_sounds cfg (cfg b).priority s1).currently_playing
            (stop_lower_priority_sounds cfg (cfg b).priority s1).busy
            (c :: (stop_lower_priority_sounds cfg (cfg b).priority s1).busy)
            b c o hob)
          hsome

/-- `True` exactly on the start outcomes of `play_sound` (a channel was
obtained and playback began). -/
def isStarted : PlayResult → Bool
  | PlayResult.played _ => true
  | _ => false

theorem cross_keys_nodup {cfg : Nat → TrackConfig} {mode : String} {pr : Int}
    {s : PlayerState} (hk : (s.currently_playing.map Prod.fst).Nodup) :
    ((cross_interaction cfg mode pr s).1.currently_playing.map
      Prod.fst).Nodup := by
  by_cases hi : mode = "interrupt"
  · rw [hi, cross_fst_interrupt]
    simp [stop_all_sounds]
  · by_cases he : mode = "exclusive"
    · rw [he, cross_fst_exclusive]
      exact List.Nodup.sublist (List.Sublist.map Prod.fst iap_cp_sublist) hk
    · by_cases ho : mode = "overlay"
      · rw [ho, cross_fst_overlay]
        exact List.Nodup.sublist (List.Sublist.map Prod.fst slp_cp_sublist) hk
      · rw [cross_fst_other hi he ho]
        exact hk

theorem par_after_success {N : Nat} {s2 : PlayerState} {b ch : Nat}
    (hk2 : (s2.currently_playing.map Prod.fst).Nodup)
    (hch : ch ∉ s2.busy) (hchN : ch < N) :
    sourceBusy (play_and_record N s2 b).1 b = true ∧
      isStarted (play_and_record N s2 b).2 = true := by
  obtain ⟨c, hc⟩ := find_free_channel_isSome hchN hch
  unfold play_and_record
  rw [hc]
  constructor
  · show sourceBusy ⟨c :: s2.busy, setChannel s2.currently_playing b c⟩ b = true
    unfold sourceBusy
    rw [lookupChan_setChannel_self hk2]
    simp [get_busy]
  · rfl

/-- A configuration with an Exclusive source whose selfBehavior is Restart,
used to exercise the Restart-versus-Blocked interaction. -/
def cfgX : Nat → TrackConfig := fun b =>
  if b = 0 then ⟨"exclusive", "restart", 5⟩ else ⟨"overlay", "restart", 1⟩

/-- Claim C7 counterexample: with an Exclusive + Restart source 0 busy on
channel 0 and another source busy, triggering source 0 stops its own
playback, is then Blocked, and ends with no assignment at all for source 0 —
the trigger of a busy Restart source did not yield a new active assignment. -/
theorem claim_C7_cex :
    lookupChan ⟨[0, 1], [(0, 0), (1, 1)]⟩ 0 = some 0 ∧
      (0 : Nat) ∈ ([0, 1] : List Nat) ∧
      (cfgX 0).self = "restart" ∧
      (play_sound 8 [true, true] cfgX ⟨[0, 1], [(0, 0), (1, 1)]⟩ 0).2 =
        PlayResult.blocked ∧
      lookupChan (play_sound 8 [true, true] cfgX
        ⟨[0, 1], [(0, 0), (1, 1)]⟩ 0).1 0 = none := by
  decide

/-- Claim C7 (amended): for a busy Restart source whose trigger is not
Blocked (Exclusive mode with another busy source), the trigger always yields
a new active assignment: the start is reached and succeeds (the self-stop
freed the source's own channel), and afterwards the source is busy again.
On the concrete configuration, two rapid triggers of source 2 both invoke
start and leave exactly one assignment for source 2. -/
theorem claim_C7_amended {N : Nat} {sounds : List Bool}
    {cfg : Nat → TrackConfig} {s : PlayerState} {b ch : Nat}
    (hs : sounds.getD b false = true)
    (hr : (cfg b).self = "restart")
    (hl : lookupChan s b = some ch) (hbusy : ch ∈ s.busy)
    (hchN : ch < N) (hnd : s.busy.Nodup)
    (hk : (s.currently_playing.map Prod.fst).Nodup)
    (hbl : (play_sound N sounds cfg s b).2 ≠ PlayResult.blocked) :
    (sourceBusy (play_sound N sounds cfg s b).1 b = true ∧
      isStarted (play_sound N sounds cfg s b).2 = true) ∧
      (play_sound 8 soundsAll track_cfg initState 2).2 = PlayResult.played 0 ∧
      (play_sound 8 soundsAll track_cfg
        (play_sound 8 soundsAll track_cfg initState 2).1 2).2 =
          PlayResult.played 0 ∧
      ((play_sound 8 soundsAll track_cfg
          (play_sound 8 soundsAll track_cfg initState 2).1 2).1.currently_playing.filter
        (fun p => decide (p.1 = 2))).length = 1 := by
  refine ⟨?_, by decide, by decide, by decide⟩
  have hsc : self_check (cfg b).self s b = some (chanStop s ch) := by
    rw [hr]; exact self_check_restart hl hbusy
  have hps := play_sound_eq_of_self (N := N) hs hsc
  rw [hps] at hbl ⊢
  have hnotbl : (cross_interaction cfg (cfg b).mode (cfg b).priority
      (chanStop s ch)).2 = false := by
    by_contra hq
    rw [Bool.not_eq_false] at hq
    exact hbl (by rw [if_pos hq])
  rw [if_neg (by simp [hnotbl])]
  have hch1 : ch ∉ (chanStop s ch).busy := fun hmm =>
    ((List.Nodup.mem_erase_iff hnd).mp hmm).1 rfl
  have hk1 : ((chanStop s ch).currently_playing.map Prod.fst).Nodup := hk
  exact par_after_success (cross_keys_nodup hk1) (cross_not_mem_busy hch1) hchN

theorem claim_C7_witness :
    (sourceBusy (play_sound 8 soundsAll track_cfg ⟨[0], [(2, 0)]⟩ 2).1 2 = true ∧
      isStarted (play_sound 8 soundsAll track_cfg ⟨[0], [(2, 0)]⟩ 2).2 = true) ∧
      (play_sound 8 soundsAll track_cfg initState 2).2 = PlayResult.played 0 ∧
      (play_sound 8 soundsAll track_cfg
        (play_sound 8 soundsAll track_cfg initState 2).1 2).2 =
          PlayResult.played 0 ∧
      ((play_sound 8 soundsAll track_cfg
          (play_sound 8 soundsAll track_cfg initState 2).1
            2).1.currently_playing.filter
        (fun p => decide (p.1 = 2))).length = 1 :=
  @claim_C7_amended 8 soundsAll track_cfg ⟨[0], [(2, 0)]⟩ 2 0
    (by decide) (by decide) (by decide) (by decide) (by decide) (by decide)
    (by decide) (by decide)

/-- Claim C6 counterexample: source 0 has a stale assignment (channel 0 has
finished); an arbitration pass for source 2 queries that entry's busy state
(in `stop_lower_priority_sounds`), observes it finished, yet the stale entry
is still present in the table afterwards — it was not purged as a side
effect of the query. -/
theorem claim_C6_cex :
    (0, 0) ∈ (⟨[], [(0, 0)]⟩ : PlayerState).currently_playing ∧
      (0 : Nat) ∉ (⟨[], [(0, 0)]⟩ : PlayerState).busy ∧
      (0, 0) ∈ (play_sound 8 soundsAll track_cfg
        ⟨[], [(0, 0)]⟩ 2).1.currently_playing := by
  decide

/-- Claim C6 (amended): the per-source busy check used during arbitration
(lines 151-153) treats a source as busy iff an assignment exists and its
channel still emits, but when the channel has finished it does not purge the
stale entry — the state passes through unchanged.  Only
`is_anything_playing` (the anyBusy query used by Exclusive mode) performs
lazy reclamation: it deletes exactly the entries whose channels have
finished, leaves the busy channels untouched, and returns true iff some
assignment with an emitting channel exists. -/
theorem claim_C6_amended {sb : String} {s : PlayerState} {b ch : Nat}
    (hk : (s.currently_playing.map Prod.fst).Nodup)
    (hl : lookupChan s b = some ch) (hstale : ch ∉ s.busy) :
    sourceBusy s b = false ∧
      self_check sb s b = some s ∧
      (is_anything_playing s).2.busy = s.busy ∧
      (is_anything_playing s).2.currently_playing =
        s.currently_playing.filter (fun p => decide (p.2 ∈ s.busy)) ∧
      (is_anything_playing s).1 =
        s.currently_playing.any (fun p => decide (p.2 ∈ s.busy)) := by
  have hsb : sourceBusy s b = false := by
    unfold sourceBusy
    rw [hl]
    simp [get_busy, hstale]
  refine ⟨hsb, self_check_not_busy hsb, iap_busy, ?_, ?_⟩
  · rw [iap_cp_eq]
    refine List.filter_congr ?_
    intro p hp
    by_cases hb : p.2 ∈ s.busy
    · simp only [decide_eq_true hb]
      simp only [Bool.not_eq_true', decide_eq_false_iff_not]
      intro hin
      rcases List.mem_map.mp hin with ⟨q, hq, hq1⟩
      have hq' := mem_iapRemoved.mp hq
      have heq : q = p := List.inj_on_of_nodup_map hk hq'.1 hp hq1
      exact hq'.2 (heq ▸ hb)
    · simp only [decide_eq_false hb]
      simp only [Bool.not_eq_false', decide_eq_true_eq]
      exact List.mem_map.mpr ⟨p, mem_iapRemoved.mpr ⟨hp, hb⟩, rfl⟩
  · rw [Bool.eq_iff_iff, iap_fst_true_iff hk, List.any_eq_true]
    constructor
    · rintro ⟨p, hp, hb⟩
      exact ⟨p, hp, decide_eq_true hb⟩
    · rintro ⟨p, hp, hb⟩
      exact ⟨p, hp, of_decide_eq_true hb⟩

theorem claim_C6_witness :
    sourceBusy ⟨[5], [(0, 0), (2, 5)]⟩ 0 = false ∧
      self_check "ignore" ⟨[5], [(0, 0), (2, 5)]⟩ 0 =
        some ⟨[5], [(0, 0), (2, 5)]⟩ ∧
      (is_anything_playing ⟨[5], [(0, 0), (2, 5)]⟩).2.busy = [5] ∧
      (is_anything_playing ⟨[5], [(0, 0), (2, 5)]⟩).2.currently_playing =
        [(0, 0), (2, 5)].filter
          (fun p => decide (p.2 ∈ ([5] : List Nat))) ∧
      (is_anything_playing ⟨[5], [(0, 0), (2, 5)]⟩).1 =
        [(0, 0), (2, 5)].any (fun p => decide (p.2 ∈ ([5] : List Nat))) :=
  @claim_C6_amended "ignore" ⟨[5], [(0, 0), (2, 5)]⟩ 0 0
    (by decide) (by decide) (by decide)

/-! ### Reachability helpers for the invariant claims -/

theorem reach_trigger {N : Nat} {sounds : List Bool} {cfg : Nat → TrackConfig}
    {s s' : PlayerState} (b : Nat) (h : Reachable N sounds cfg s)
    (he : (play_sound N sounds cfg s b).1 = s') : Reachable N sounds cfg s' :=
  Relation.ReflTransGen.tail h (he ▸ Step.trigger s b)

theorem reach_finish {N : Nat} {sounds : List Bool} {cfg : Nat → TrackConfig}
    {s s' : PlayerState} (c : Nat) (h : Reachable N sounds cfg s)
    (he : ({ s with busy := s.busy.erase c } : PlayerState) = s') :
    Reachable N sounds cfg s' :=
  Relation.ReflTransGen.tail h (he ▸ Step.finish s c)

theorem treach_trigger {N : Nat} {sounds : List Bool} {cfg : Nat → TrackConfig}
    {s s' : PlayerState} (b : Nat) (h : TriggerReachable N sounds cfg s)
    (he : (play_sound N sounds cfg s b).1 = s') :
    TriggerReachable N sounds cfg s' :=
  Relation.ReflTransGen.tail h (he ▸ TriggerStep.trigger s b)

/-- Claim C5 counterexample: trigger source 2 (it gets channel 0), let
channel 0 finish naturally, then trigger source 3; pygame hands channel 0
to source 3 while source 2's stale entry still references it, so a reachable
state has two distinct entries sharing one channel handle. -/
theorem claim_C5_cex :
    Reachable 8 soundsAll track_cfg ⟨[0], [(2, 0), (3, 0)]⟩ ∧
      ¬ ((⟨[0], [(2, 0), (3, 0)]⟩ : PlayerState).currently_playing.map
          Prod.snd).Nodup := by
  constructor
  · have h1 : Reachable 8 soundsAll track_cfg ⟨[0], [(2, 0)]⟩ :=
      reach_trigger 2 Relation.ReflTransGen.refl (by decide)
    have h2 : Reachable 8 soundsAll track_cfg ⟨[], [(2, 0)]⟩ :=
      reach_finish 0 h1 (by decide)
    exact reach_trigger 3 h2 (by decide)
  · decide

/-- Claim C5 (amended): in every state reachable from startup by trigger
operations alone (no playback finishing naturally in between), no two
distinct entries of the assignment table share a channel handle.  Once a
channel is allowed to finish naturally, its stale entry can survive the next
arbitration pass and alias the reassigned channel, so the invariant does not
hold for all reachable states. -/
theorem claim_C5_amended {N : Nat} {sounds : List Bool}
    {cfg : Nat → TrackConfig} {s : PlayerState}
    (h : TriggerReachable N sounds cfg s) :
    (s.currently_playing.map Prod.snd).Nodup :=
  (TriggerReachable_WFS h).2.2.2.1

theorem claim_C5_witness :
    ((⟨[0], [(2, 0)]⟩ : PlayerState).currently_playing.map Prod.snd).Nodup :=
  claim_C5_amended (@treach_trigger 8 soundsAll track_cfg initState
    ⟨[0], [(2, 0)]⟩ 2 Relation.ReflTransGen.refl (by decide))

/-- Claim C10 counterexample: the claimed scenario is impossible — there is
no reachable state in which a trigger of a busy Restart source fails its
start attempt, hence none in which such a failed trigger leaves a stale
assignment behind. -/
theorem claim_C10_cex :
    ¬ ∃ (N : Nat) (sounds : List Bool) (cfg : Nat → TrackConfig)
      (s : PlayerState) (b ch : Nat),
      Reachable N sounds cfg s ∧ lookupChan s b = some ch ∧ ch ∈ s.busy ∧
        (cfg b).self = "restart" ∧
        (play_sound N sounds cfg s b).2 = PlayResult.dropped := by
  rintro ⟨N, sounds, cfg, s, b, ch, h, hl, hbusy, hr, hdrop⟩
  exact restart_busy_not_dropped (Reachable_WFW h) hl hbusy hr hdrop

/-- Claim C10 (amended): the restart path is indeed non-atomic in the code
(the stop at line 158 and the start at line 175 are separate, and the old
entry is only removed by being overwritten), but in every reachable state
the self-stop frees the source's own pool channel, so the start attempt
after a Restart self-stop never fails and no stale assignment can be left
this way. -/
theorem claim_C10_amended {N : Nat} {sounds : List Bool}
    {cfg : Nat → TrackConfig} {s : PlayerState} {b ch : Nat}
    (h : Reachable N sounds cfg s)
    (hl : lookupChan s b = some ch) (hbusy : ch ∈ s.busy)
    (hr : (cfg b).self = "restart") :
    (play_sound N sounds cfg s b).2 ≠ PlayResult.dropped :=
  restart_busy_not_dropped (Reachable_WFW h) hl hbusy hr

theorem claim_C10_witness :
    (play_sound 8 soundsAll track_cfg ⟨[0], [(2, 0)]⟩ 2).2 ≠
      PlayResult.dropped :=
  @claim_C10_amended 8 soundsAll track_cfg ⟨[0], [(2, 0)]⟩ 2 0
    (@reach_trigger 8 soundsAll track_cfg initState ⟨[0], [(2, 0)]⟩ 2
      Relation.ReflTransGen.refl (by decide))
    (by decide) (by decide) (by decide)

/-- Claim C3 counterexample.  First part: source 2 (Overlay, Restart,
priority 2) is busy on channel 1 and its priority is not strictly below the
triggering priority (it is the trigger), yet the trigger stops it and
reassigns it to a different channel handle, so a busy source of priority ≥
the triggering priority was not left untouched.  Second part: in the
reachable aliased state where source 3's stale entry shares channel 0 with
source 2 (reached by trigger 2, natural finish, trigger 3), triggering
source 2 leaves the busy strictly-lower-priority source 3 with its
assignment and an emitting channel, so the trigger did not stop exactly the
busy lower-priority sources. -/
theorem claim_C3_cex :
    (lookupChan ⟨[1], [(2, 1)]⟩ 2 = some 1 ∧ (1 : Nat) ∈ ([1] : List Nat) ∧
      ¬((track_cfg 2).priority < (track_cfg 2).priority) ∧
      lookupChan (play_sound 8 soundsAll track_cfg ⟨[1], [(2, 1)]⟩ 2).1 2 ≠
        some 1) ∧
    (Reachable 8 soundsAll track_cfg ⟨[0], [(2, 0), (3, 0)]⟩ ∧
      lookupChan ⟨[0], [(2, 0), (3, 0)]⟩ 3 = some 0 ∧
      (0 : Nat) ∈ (⟨[0], [(2, 0), (3, 0)]⟩ : PlayerState).busy ∧
      (track_cfg 3).priority < (track_cfg 2).priority ∧
      lookupChan (play_sound 8 soundsAll track_cfg
          ⟨[0], [(2, 0), (3, 0)]⟩ 2).1 3 = some 0 ∧
      (0 : Nat) ∈ (play_sound 8 soundsAll track_cfg
          ⟨[0], [(2, 0), (3, 0)]⟩ 2).1.busy) := by
  constructor
  · decide
  · refine ⟨?_, by decide, by decide, by decide, by decide, by decide⟩
    have h1 : Reachable 8 soundsAll track_cfg ⟨[0], [(2, 0)]⟩ :=
      reach_trigger 2 Relation.ReflTransGen.refl (by decide)
    have h2 : Reachable 8 soundsAll track_cfg ⟨[], [(2, 0)]⟩ :=
      reach_finish 0 h1 (by decide)
    exact reach_trigger 3 h2 (by decide)

theorem claim_C3_witness :
    lookupChan (play_sound 8 soundsAll track_cfg
        ⟨[2, 1, 0], [(4, 0), (2, 1), (3, 2)]⟩ 2).1 3 = none ∧
      (lookupChan (play_sound 8 soundsAll track_cfg
          ⟨[2, 1, 0], [(4, 0), (2, 1), (3, 2)]⟩ 2).1 4 = some 0 ∧
        0 ∈ (play_sound 8 soundsAll track_cfg
          ⟨[2, 1, 0], [(4, 0), (2, 1), (3, 2)]⟩ 2).1.busy) :=
  ⟨(@claim_C3_amended 8 soundsAll track_cfg
      ⟨[2, 1, 0], [(4, 0), (2, 1), (3, 2)]⟩ 2 3 2 (by decide) (by decide)
      (by decide) (by decide) (by decide) (by decide) (by decide)
      (by decide)).1 (by decide),
   (@claim_C3_amended 8 soundsAll track_cfg
      ⟨[2, 1, 0], [(4, 0), (2, 1), (3, 2)]⟩ 2 4 0 (by decide) (by decide)
      (by decide) (by decide) (by decide) (by decide) (by decide)
      (by decide)).2 (by decide)⟩
